import Mathlib

/-!
# Verification of the Picnik friend / invite workflow

This file is a shallow embedding of the friend-relationship and picnic-invite
workflow of the Picnik repository, together with theorems settling the spec
claims about it.

The repository contains several concatenated copies of the same modules with
diverging behaviour; we embed each copy separately and keep the source file
order:

* namespace `Db`      — the first friends module in `src/firebase.ts`
  (imported elsewhere as `firebase/db`): `sendFriendRequest`,
  `respondToFriendRequest`, `getFriendsList`.
* namespace `Friends` — the second friends module in `src/firebase.ts`
  (imported as `firebase/friends`): `sendFriendRequest`,
  `respondToFriendRequest`, `getFriendsList`, `removeFriend`.
* namespace `Picnics` — the client picnic-invite module (`respondToPicnicInvite`,
  src/unnamed/part_009).
* namespace `CloudFns` — the cloud-function `respondToPicnicInvite`
  (src/unnamed/part_015).

The remote document store is modelled as association lists from document id to
document, one per collection.  Firestore primitives are modelled as follows:

* `getDoc` — association-list lookup (`lookupDoc`);
* `setDoc` — insert-or-replace (`setKey`);
* `updateDoc` — fails (throws) when the document is missing, otherwise
  replaces it; on code paths where the document provably exists we use the
  total `adjust` (identical behaviour there);
* `writeBatch` + `commit` — `batchUpdate2`: both updates applied together, or
  none when a target document is missing (Firestore batches are atomic);
* `arrayUnion x` — append `x` unless already present;
* `arrayRemove x` / JS `filter` — remove every occurrence;
* setting a map field to `null` — store an entry whose value is `none`
  (Firestore keeps null-valued fields, `Object.keys` still lists them).

Timestamps (`createdAt` / `updatedAt` / `serverTimestamp`) carry no
claim-relevant information and are omitted from the document records.
JS falsy-string defaulting `a || b` is `jsOr`; JS `trim` / `toLowerCase`
(ASCII) are `jsTrim` / `jsToLower`.
-/

/-- Status of a friend request (`'pending' | 'accepted' | 'rejected'`). -/
inductive FriendRequestStatus where
  | pending
  | accepted
  | rejected
deriving DecidableEq, Repr, Inhabited

/-- The `'accepted' | 'rejected'` argument of `respondToFriendRequest`. -/
inductive Decision where
  | accepted
  | rejected
deriving DecidableEq, Repr, Inhabited

/-- The friend-request status a decision writes. -/
def Decision.toStatus : Decision → FriendRequestStatus
  | .accepted => .accepted
  | .rejected => .rejected

/-- The string interpolated into the success message of
`Friends.respondToFriendRequest`. -/
def Decision.text : Decision → String
  | .accepted => "accepted"
  | .rejected => "rejected"

/-- A denormalized profile snapshot `{name, email, photoURL}`. -/
structure FriendProfile where
  name : String
  email : String
  photoURL : String
deriving DecidableEq, Repr, Inhabited

/-- A `users/{id}` document.  `friendProfiles` entries with value `none`
model fields explicitly set to `null`. -/
structure UserDoc where
  name : String
  email : String
  photoURL : String
  friends : List String
  friendProfiles : List (String × Option FriendProfile)
  sentRequests : List String
  receivedRequests : List String
deriving DecidableEq, Repr, Inhabited

/-- A `friendRequests/{id}` document.  The `fromUser` / `toUser` snapshots are
optional: the `Db` copy of `sendFriendRequest` writes them, the `Friends` copy
does not. -/
structure FriendRequestDoc where
  fromUserId : String
  toUserId : String
  status : FriendRequestStatus
  fromUserSnap : Option FriendProfile
  toUserSnap : Option FriendProfile
deriving DecidableEq, Repr, Inhabited

/-- A `picnics/{id}` document (the fields the invite workflow touches). -/
structure PicnicDoc where
  participants : List String
  invitedUsers : List String
  createdBy : String
deriving DecidableEq, Repr, Inhabited

/-- A `notifications/{id}` document (the fields the invite workflow touches). -/
structure NotificationDoc where
  ntype : String
  senderId : String
  recipientId : String
  picnicId : String
  message : String
  isRead : Bool
deriving DecidableEq, Repr, Inhabited

/-- The remote document store: one association list per collection. -/
structure Store where
  users : List (String × UserDoc)
  friendRequests : List (String × FriendRequestDoc)
  picnics : List (String × PicnicDoc)
  notifications : List (String × NotificationDoc)
deriving DecidableEq, Repr, Inhabited

/-- The `{success, message}` result shape of the `Friends` and `Picnics`
modules. -/
structure SMResult where
  success : Bool
  message : String
deriving DecidableEq, Repr, Inhabited

deriving instance DecidableEq for Except

/-- Successful `{success: true, message}` result. -/
def mkOk (m : String) : SMResult := ⟨true, m⟩

/-- Failed `{success: false, message}` result. -/
def mkFail (m : String) : SMResult := ⟨false, m⟩

/-- `getDoc`: first binding of a document id in a collection. -/
def lookupDoc {δ : Type} (k : String) : List (String × δ) → Option δ
  | [] => none
  | (k', v) :: rest => if k' = k then some v else lookupDoc k rest

/-- `setDoc`: replace the first binding of `k`, or append a new one. -/
def setKey {δ : Type} (k : String) (v : δ) : List (String × δ) → List (String × δ)
  | [] => [(k, v)]
  | (k', v') :: rest => if k' = k then (k, v) :: rest else (k', v') :: setKey k v rest

/-- Total update: apply `f` to the document at `k` when present (used on code
paths where the document was just read, so `updateDoc` cannot fail). -/
def adjust {δ : Type} (k : String) (f : δ → δ) (l : List (String × δ)) : List (String × δ) :=
  match lookupDoc k l with
  | none => l
  | some v => setKey k (f v) l

/-- `updateDoc`: fails when the document is missing. -/
def updateAt {δ : Type} (k : String) (f : δ → δ) (l : List (String × δ)) :
    Option (List (String × δ)) :=
  match lookupDoc k l with
  | none => none
  | some v => some (setKey k (f v) l)

/-- A two-update `writeBatch` on the `users` collection: atomic, failing as a
whole when either target document is missing. -/
def batchUpdate2 (k₁ : String) (f₁ : UserDoc → UserDoc) (k₂ : String)
    (f₂ : UserDoc → UserDoc) (s : Store) : Option Store :=
  match updateAt k₁ f₁ s.users with
  | none => none
  | some l₁ =>
    match updateAt k₂ f₂ l₁ with
    | none => none
    | some l₂ => some { s with users := l₂ }

/-- Firestore `arrayUnion x`: append `x` unless already present. -/
def arrayUnion (x : String) (l : List String) : List String :=
  if x ∈ l then l else l ++ [x]

/-- JS falsy-string defaulting `a || b` (empty string is falsy). -/
def jsOr (a b : String) : String := if a = "" then b else a

/-- Whitespace recognised by JS `trim` (the ASCII cases), by code point:
space, tab, line feed, carriage return. -/
def isWsChar (c : Char) : Bool := c.toNat = 32 ∨ c.toNat = 9 ∨ c.toNat = 10 ∨ c.toNat = 13

/-- ASCII lower-casing of one code unit, as JS `toLowerCase` does on ASCII. -/
def lowerChar (c : Char) : Char :=
  if 65 ≤ c.toNat ∧ c.toNat ≤ 90 then Char.ofNat (c.toNat + 32) else c

/-- JS `String.prototype.trim` over the character list. -/
def trimChars (l : List Char) : List Char :=
  ((l.dropWhile isWsChar).reverse.dropWhile isWsChar).reverse

/-- JS `String.prototype.trim`. -/
def jsTrim (s : String) : String := String.mk (trimChars s.data)

/-- JS `String.prototype.toLowerCase` (ASCII fragment). -/
def jsToLower (s : String) : String := String.mk (s.data.map lowerChar)

/-- `email.trim().toLowerCase()` as in `Db.sendFriendRequest`. -/
def normalizeEmail (e : String) : String := jsToLower (jsTrim e)

/-- `query(usersCollection, where('email', '==', e))` followed by `.docs[0]`:
the first user document whose `email` field equals `e`. -/
def findByEmail (e : String) (users : List (String × UserDoc)) :
    Option (String × UserDoc) :=
  users.find? (fun p => p.2.email = e)

/-- `query(friendRequestsCollection, where('fromUserId','==',f),
where('toUserId','==',t), where('status','==','pending'))`. -/
def pendingBetween (f t : String) (s : Store) : List (String × FriendRequestDoc) :=
  s.friendRequests.filter (fun p => p.2.fromUserId = f ∧ p.2.toUserId = t ∧ p.2.status = .pending)

/-- An element of the list returned by `getFriendsList` in the `Db` module. -/
structure FriendEntry where
  id : String
  name : String
  email : String
  photoURL : String
deriving DecidableEq, Repr, Inhabited

/-- An element of the list returned by `Friends.getFriendsList`. -/
structure OnlineFriendEntry where
  id : String
  name : String
  email : String
  photoURL : String
  isOnline : Bool
deriving DecidableEq, Repr, Inhabited

/-- The `friends` array of a user document, empty when the document is
missing. -/
def Store.friendsOf (s : Store) (uid : String) : List String :=
  match lookupDoc uid s.users with
  | some u => u.friends
  | none => []

/-- The `friendProfiles` entry of `uid`'s document under key `friendId`:
`none` when the document or the entry is missing, `some none` when the entry
was set to null. -/
def Store.profileOf (s : Store) (uid friendId : String) : Option (Option FriendProfile) :=
  match lookupDoc uid s.users with
  | some u => lookupDoc friendId u.friendProfiles
  | none => none

/-- The status of friend request `rid`, when the document exists. -/
def Store.requestStatus (s : Store) (rid : String) : Option FriendRequestStatus :=
  (lookupDoc rid s.friendRequests).map (fun r => r.status)

/-! ## The `Db` module (first friends module in `src/firebase.ts`) -/

/-- `Db.sendFriendRequest` (src/firebase.ts, first copy, lines 139-263).
Throws are modelled as `Except.error` carrying the thrown message; every
throw happens before the first write except none (all guards precede the
writes), so error results leave the store unchanged.  `newId` models the id
freshly generated by `addDoc`. -/
def Db.sendFriendRequest (fromUserId toUserEmail newId : String) (s : Store) :
    Except String String × Store :=
  if fromUserId = "" ∨ toUserEmail = "" then
    (.error "Please provide both user ID and email", s)
  else
    match lookupDoc fromUserId s.users with
    | none => (.error "Your user account was not found", s)
    | some fromUser =>
      let normalizedEmail := normalizeEmail toUserEmail
      match findByEmail normalizedEmail s.users with
      | none => (.error "No user found with that email", s)
      | some (toUserId, toUser) =>
        if fromUserId = toUserId then
          (.error "You cannot send a friend request to yourself", s)
        else if pendingBetween fromUserId toUserId s ≠ [] then
          (.error "Friend request already sent to this user", s)
        else if pendingBetween toUserId fromUserId s ≠ [] then
          (.error "This user has already sent you a friend request", s)
        else
          let requestData : FriendRequestDoc :=
            { fromUserId := fromUserId, toUserId := toUserId, status := .pending,
              fromUserSnap := some { name := jsOr fromUser.name "",
                                     email := fromUser.email,
                                     photoURL := jsOr fromUser.photoURL "" },
              toUserSnap := some { name := jsOr toUser.name "",
                                   email := toUser.email,
                                   photoURL := jsOr toUser.photoURL "" } }
          let s₁ := { s with friendRequests := s.friendRequests ++ [(newId, requestData)] }
          let s₂ := { s₁ with
            users := adjust fromUserId
              (fun u => { u with sentRequests := arrayUnion newId u.sentRequests }) s₁.users }
          let s₃ := { s₂ with
            users := adjust toUserId
              (fun u => { u with receivedRequests := arrayUnion newId u.receivedRequests }) s₂.users }
          (.ok newId, s₃)

/-- The user-document update `Db.respondToFriendRequest` applies to the
sender: add the recipient to `friends` and store the recipient's profile
snapshot under the recipient's id. -/
def Db.acceptFromUpdate (req : FriendRequestDoc) (toUserData : UserDoc) : UserDoc → UserDoc :=
  fun u => { u with
    friends := arrayUnion req.toUserId u.friends,
    friendProfiles := setKey req.toUserId
      (some { name := jsOr toUserData.name "Unknown User",
              email := toUserData.email,
              photoURL := jsOr toUserData.photoURL "" }) u.friendProfiles }

/-- The user-document update `Db.respondToFriendRequest` applies to the
recipient: add the sender to `friends` and store the sender's profile
snapshot under the sender's id. -/
def Db.acceptToUpdate (req : FriendRequestDoc) (fromUserData : UserDoc) : UserDoc → UserDoc :=
  fun u => { u with
    friends := arrayUnion req.fromUserId u.friends,
    friendProfiles := setKey req.fromUserId
      (some { name := jsOr fromUserData.name "Unknown User",
              email := fromUserData.email,
              photoURL := jsOr fromUserData.photoURL "" }) u.friendProfiles }

/-- `Db.respondToFriendRequest` (src/firebase.ts, first copy, lines 265-329).
Note: this copy performs no `pending` check, updates the request status first,
and then issues two separate, non-batched `updateDoc` calls on the two user
documents. -/
def Db.respondToFriendRequest (requestId : String) (d : Decision) (s : Store) :
    Except String Unit × Store :=
  match lookupDoc requestId s.friendRequests with
  | none => (.error "Friend request not found", s)
  | some req =>
    let s₁ := { s with
      friendRequests := adjust requestId
        (fun r => { r with status := d.toStatus }) s.friendRequests }
    match d with
    | .rejected => (.ok (), s₁)
    | .accepted =>
      match lookupDoc req.fromUserId s₁.users, lookupDoc req.toUserId s₁.users with
      | some fromUserData, some toUserData =>
        let s₂ := { s₁ with users := adjust req.fromUserId (Db.acceptFromUpdate req toUserData) s₁.users }
        let s₃ := { s₂ with users := adjust req.toUserId (Db.acceptToUpdate req fromUserData) s₂.users }
        (.ok (), s₃)
      | _, _ => (.error "One or both users not found", s₁)

/-- The store states reachable if `Db.respondToFriendRequest` stops (crashes
or is rejected) after any prefix of its sequential awaited writes: the status
update and the two separate user-document updates each commit on their own. -/
def Db.respondCrashStates (requestId : String) (d : Decision) (s : Store) : List Store :=
  match lookupDoc requestId s.friendRequests with
  | none => [s]
  | some req =>
    let s₁ := { s with
      friendRequests := adjust requestId
        (fun r => { r with status := d.toStatus }) s.friendRequests }
    match d with
    | .rejected => [s, s₁]
    | .accepted =>
      match lookupDoc req.fromUserId s₁.users, lookupDoc req.toUserId s₁.users with
      | some fromUserData, some toUserData =>
        let s₂ := { s₁ with users := adjust req.fromUserId (Db.acceptFromUpdate req toUserData) s₁.users }
        let s₃ := { s₂ with users := adjust req.toUserId (Db.acceptToUpdate req fromUserData) s₂.users }
        [s, s₁, s₂, s₃]
      | _, _ => [s, s₁]

/-- The blank user document `Db.getFriendsList` creates for a missing user
(`{name: '', email: '', friends: [], createdAt}`). -/
def Db.blankUser : UserDoc :=
  { name := "", email := "", photoURL := "", friends := [], friendProfiles := [],
    sentRequests := [], receivedRequests := [] }

/-- `Db.getFriendsList` (src/firebase.ts, first copy, lines 435-501).
Creates a blank user document and returns `[]` when the user is missing;
prefers the `friendProfiles` map when non-empty; otherwise falls back to one
individual lookup per friend id, dropping friends whose lookup fails. -/
def Db.getFriendsList (userId : String) (s : Store) : List FriendEntry × Store :=
  match lookupDoc userId s.users with
  | none => ([], { s with users := setKey userId Db.blankUser s.users })
  | some userData =>
    if userData.friends = [] then ([], s)
    else if userData.friendProfiles ≠ [] then
      (userData.friends.map (fun friendId =>
        match (lookupDoc friendId userData.friendProfiles).join with
        | some profile =>
          { id := friendId, name := jsOr profile.name "Unknown User",
            email := jsOr profile.email "", photoURL := profile.photoURL }
        | none => { id := friendId, name := "Unknown User", email := "", photoURL := "" }), s)
    else
      (userData.friends.filterMap (fun friendId =>
        (lookupDoc friendId s.users).map (fun friendData =>
          { id := friendId, name := jsOr friendData.name "Unknown User",
            email := friendData.email, photoURL := friendData.photoURL })), s)

/-! ## The `Friends` module (second friends module in `src/firebase.ts`) -/

/-- `requestData.fromUser?.name || 'Unknown'` (and the analogous `email`,
`photoURL` defaults) applied to the optional request snapshot. -/
def Friends.snapEntry (snap : Option FriendProfile) : FriendProfile :=
  { name := jsOr (match snap with | some p => p.name | none => "") "Unknown",
    email := jsOr (match snap with | some p => p.email | none => "") "",
    photoURL := jsOr (match snap with | some p => p.photoURL | none => "") "" }

/-- `toUserData?.name || 'Unknown'` (and the analogous defaults) applied to the
optionally-present user document. -/
def Friends.userEntry (u : Option UserDoc) : FriendProfile :=
  { name := jsOr (match u with | some x => x.name | none => "") "Unknown",
    email := jsOr (match u with | some x => x.email | none => "") "",
    photoURL := jsOr (match u with | some x => x.photoURL | none => "") "" }

/-- The `writeBatch` issued by `Friends.respondToFriendRequest` on accept.
Note the source stores the request's *sender* snapshot under the recipient's
key on the sender's own document, and the *recipient's own* data under the
sender's key on the recipient's document. -/
def Friends.acceptBatch (requestData : FriendRequestDoc) (s₁ : Store) : Option Store :=
  let toUserData := lookupDoc requestData.toUserId s₁.users
  batchUpdate2 requestData.fromUserId
    (fun u => { u with
      friends := arrayUnion requestData.toUserId u.friends,
      friendProfiles := setKey requestData.toUserId
        (some (Friends.snapEntry requestData.fromUserSnap)) u.friendProfiles })
    requestData.toUserId
    (fun u => { u with
      friends := arrayUnion requestData.fromUserId u.friends,
      friendProfiles := setKey requestData.fromUserId
        (some (Friends.userEntry toUserData)) u.friendProfiles })
    s₁

/-- `Friends.respondToFriendRequest` (src/firebase.ts, second copy,
lines 765-832): guards that the request exists and is still `pending`, updates
the status, then applies the accept batch. -/
def Friends.respondToFriendRequest (requestId : String) (d : Decision) (s : Store) :
    SMResult × Store :=
  match lookupDoc requestId s.friendRequests with
  | none => (mkFail "Friend request not found.", s)
  | some requestData =>
    if requestData.status ≠ .pending then
      (mkFail "This request has already been processed.", s)
    else
      let s₁ := { s with
        friendRequests := adjust requestId
          (fun r => { r with status := d.toStatus }) s.friendRequests }
      match d with
      | .rejected => (mkOk ("Friend request " ++ d.text ++ " successfully."), s₁)
      | .accepted =>
        match Friends.acceptBatch requestData s₁ with
        | some s₂ => (mkOk ("Friend request " ++ d.text ++ " successfully."), s₂)
        | none => (mkFail "Failed to process friend request. Please try again.", s₁)

/-- The store states reachable if `Friends.respondToFriendRequest` stops after
any prefix of its awaited writes: the status update commits on its own, the
two user-document updates commit together (one batch) or not at all. -/
def Friends.respondCrashStates (requestId : String) (d : Decision) (s : Store) : List Store :=
  match lookupDoc requestId s.friendRequests with
  | none => [s]
  | some requestData =>
    if requestData.status ≠ .pending then [s]
    else
      let s₁ := { s with
        friendRequests := adjust requestId
          (fun r => { r with status := d.toStatus }) s.friendRequests }
      match d with
      | .rejected => [s, s₁]
      | .accepted =>
        match Friends.acceptBatch requestData s₁ with
        | some s₂ => [s, s₁, s₂]
        | none => [s, s₁]

/-- `Friends.sendFriendRequest` (src/firebase.ts, second copy, lines 678-760).
Note: this copy looks the recipient up by the *raw* email (no trim/lowercase)
and auto-accepts an existing reverse pending request.  `newId` models the
fresh document reference of `doc(friendRequestsCollection)`. -/
def Friends.sendFriendRequest (fromUserId toUserEmail newId : String) (s : Store) :
    SMResult × Store :=
  match findByEmail toUserEmail s.users with
  | none => (mkFail "No user found with that email address.", s)
  | some (toUserId, _) =>
    if fromUserId = toUserId then
      (mkFail "You cannot send a friend request to yourself.", s)
    else
      let alreadyFriends : Bool :=
        match lookupDoc fromUserId s.users with
        | some fromUserData => decide (toUserId ∈ fromUserData.friends)
        | none => false
      if alreadyFriends then (mkFail "You are already friends with this user.", s)
      else if pendingBetween fromUserId toUserId s ≠ [] then
        (mkFail "Friend request already sent.", s)
      else
        match (pendingBetween toUserId fromUserId s).head? with
        | some reverseRequest =>
          let r := Friends.respondToFriendRequest reverseRequest.1 .accepted s
          (mkOk "Friend request accepted!", r.2)
        | none =>
          let newRequest : FriendRequestDoc :=
            { fromUserId := fromUserId, toUserId := toUserId, status := .pending,
              fromUserSnap := none, toUserSnap := none }
          (mkOk "Friend request sent successfully!",
            { s with friendRequests := s.friendRequests ++ [(newId, newRequest)] })

/-- `Friends.getFriendsList` (src/firebase.ts, second copy, lines 890-934):
reads only the `friendProfiles` map (restricted to current friend ids); there
is no per-friend fallback fetch in this copy. -/
def Friends.getFriendsList (userId : String) (s : Store) : List OnlineFriendEntry :=
  match lookupDoc userId s.users with
  | none => []
  | some userData =>
    if userData.friends = [] then []
    else
      (userData.friendProfiles.filter (fun p => decide (p.1 ∈ userData.friends))).map
        (fun p =>
          match p.2 with
          | some profile =>
            { id := p.1, name := jsOr profile.name "Unknown", email := jsOr profile.email "",
              photoURL := profile.photoURL, isOnline := false }
          | none =>
            { id := p.1, name := "Unknown", email := "", photoURL := "", isOnline := false })

/-- The per-side update of `Friends.removeFriend`: drop the other id from
`friends` and set the corresponding `friendProfiles` entry to null. -/
def Friends.removeFriendUpdate (otherId : String) : UserDoc → UserDoc :=
  fun u => { u with
    friends := u.friends.filter (fun x => x ≠ otherId),
    friendProfiles := setKey otherId none u.friendProfiles }

/-- `Friends.removeFriend` (src/firebase.ts, second copy, lines 939-973): one
atomic batch removing each user from the other's `friends` array and nulling
the two `friendProfiles` entries. -/
def Friends.removeFriend (userId friendId : String) (s : Store) : SMResult × Store :=
  match batchUpdate2 userId (Friends.removeFriendUpdate friendId)
      friendId (Friends.removeFriendUpdate userId) s with
  | some s₂ => (mkOk "Friend removed successfully.", s₂)
  | none => (mkFail "Failed to remove friend. Please try again.", s)

/-! ## The client picnic-invite module (src/unnamed/part_009) -/

/-- `respondToPicnicInvite` (client copy, src/unnamed/part_009, lines 57-107).
Throws (missing picnic, user not invited) are caught and turned into the
generic failure result; on accept the participants update and the
invited-users update are two separate sequential `updateDoc` calls, the second
rewriting `invitedUsers` to the pre-read list without the responder. -/
def Picnics.respondToPicnicInvite (picnicId userId : String) (accept : Bool) (s : Store) :
    SMResult × Store :=
  match lookupDoc picnicId s.picnics with
  | none => (mkFail "Failed to process your response", s)
  | some picnicData =>
    let invitedUsers := picnicData.invitedUsers
    if userId ∈ invitedUsers then
      let s₁ :=
        if accept then
          { s with
            picnics := adjust picnicId
              (fun p => { p with participants := arrayUnion userId p.participants }) s.picnics }
        else s
      let s₂ := { s₁ with
        picnics := adjust picnicId
          (fun p => { p with invitedUsers := invitedUsers.filter (fun x => x ≠ userId) })
          s₁.picnics }
      (mkOk (if accept then "Successfully joined the picnic!" else "Invite declined"), s₂)
    else (mkFail "Failed to process your response", s)

/-! ## The cloud-function picnic-invite module (src/unnamed/part_015) -/

/-- `respondToPicnicInvite` (cloud-function copy, src/unnamed/part_015).
`auth` models `request.auth?.uid`; `newNotifId` models the id of the
creator-notification document added on accept.  This copy guards only that the
notification is addressed to the caller — it never consults or updates
`invitedUsers`. -/
def CloudFns.respondToPicnicInvite (picnicId notificationId : String) (auth : Option String)
    (accept : Bool) (newNotifId : String) (s : Store) : Except String Unit × Store :=
  match auth with
  | none => (.error "unauthenticated", s)
  | some uid =>
    match lookupDoc picnicId s.picnics, lookupDoc notificationId s.notifications with
    | some picnic, some notif =>
      if notif.recipientId ≠ uid then (.error "permission-denied", s)
      else
        let s₁ := { s with
          notifications := adjust notificationId
            (fun n => { n with isRead := true }) s.notifications }
        if accept then
          let s₂ := { s₁ with
            picnics := adjust picnicId
              (fun p => { p with participants := arrayUnion uid p.participants }) s₁.picnics }
          let creatorId := picnic.createdBy
          if creatorId ≠ "" then
            match lookupDoc uid s₂.users with
            | some userData =>
              (.ok (), { s₂ with
                notifications := s₂.notifications ++ [(newNotifId,
                  { ntype := "picnic_update", senderId := uid, recipientId := creatorId,
                    picnicId := picnicId,
                    message := userData.name ++ " has accepted your picnic invite.",
                    isRead := false })] })
            | none => (.ok (), s₂)
          else (.ok (), s₂)
        else (.ok (), s₁)
    | _, _ => (.error "not-found", s)

/-! ## Association-list and array-primitive lemmas -/

theorem lookupDoc_setKey_self {δ : Type} (k : String) (v : δ) (l : List (String × δ)) :
    lookupDoc k (setKey k v l) = some v := by
  induction l with
  | nil => simp [setKey, lookupDoc]
  | cons h t ih =>
    obtain ⟨k', v'⟩ := h
    by_cases hk : k' = k
    · simp [setKey, hk, lookupDoc]
    · simp [setKey, hk, lookupDoc, ih]

theorem lookupDoc_setKey_ne {δ : Type} {k k' : String} (h : k' ≠ k) (v : δ)
    (l : List (String × δ)) : lookupDoc k (setKey k' v l) = lookupDoc k l := by
  induction l with
  | nil => simp [setKey, lookupDoc, h]
  | cons hd t ih =>
    obtain ⟨k'', v''⟩ := hd
    by_cases hk : k'' = k'
    · subst hk
      simp [setKey, lookupDoc, h]
    · simp only [setKey, if_neg hk, lookupDoc]
      by_cases hk2 : k'' = k
      · simp [hk2]
      · simp [hk2, ih]

theorem setKey_self_of_lookup {δ : Type} {k : String} {v : δ} :
    ∀ {l : List (String × δ)}, lookupDoc k l = some v → setKey k v l = l := by
  intro l
  induction l with
  | nil => intro h; simp [lookupDoc] at h
  | cons hd t ih =>
    obtain ⟨k', v'⟩ := hd
    intro h
    by_cases hk : k' = k
    · subst hk
      simp only [lookupDoc, if_pos rfl] at h
      injection h with h
      simp [setKey, h]
    · simp only [lookupDoc, if_neg hk] at h
      simp [setKey, hk, ih h]

theorem setKey_setKey_self {δ : Type} (k : String) (v w : δ) (l : List (String × δ)) :
    setKey k v (setKey k w l) = setKey k v l := by
  induction l with
  | nil => simp [setKey]
  | cons hd t ih =>
    obtain ⟨k', v'⟩ := hd
    by_cases hk : k' = k
    · simp [setKey, hk]
    · simp [setKey, hk, ih]

theorem keys_setKey {δ : Type} {k : String} {l : List (String × δ)} (v : δ)
    (h : lookupDoc k l ≠ none) : (setKey k v l).map Prod.fst = l.map Prod.fst := by
  induction l with
  | nil => simp [lookupDoc] at h
  | cons hd t ih =>
    obtain ⟨k', v'⟩ := hd
    by_cases hk : k' = k
    · simp [setKey, hk]
    · simp only [lookupDoc, if_neg hk] at h
      simp [setKey, hk, ih h]

theorem lookupDoc_adjust_self {δ : Type} {k : String} {v : δ} {l : List (String × δ)}
    (f : δ → δ) (h : lookupDoc k l = some v) :
    lookupDoc k (adjust k f l) = some (f v) := by
  unfold adjust
  rw [h]
  exact lookupDoc_setKey_self k (f v) l

theorem lookupDoc_adjust_ne {δ : Type} {k k' : String} (h : k' ≠ k) (f : δ → δ)
    (l : List (String × δ)) : lookupDoc k (adjust k' f l) = lookupDoc k l := by
  unfold adjust
  cases hl : lookupDoc k' l with
  | none => rfl
  | some v => exact lookupDoc_setKey_ne h (f v) l

theorem keys_adjust {δ : Type} (k : String) (f : δ → δ) (l : List (String × δ)) :
    (adjust k f l).map Prod.fst = l.map Prod.fst := by
  unfold adjust
  cases hl : lookupDoc k l with
  | none => rfl
  | some v => exact keys_setKey (f v) (by simp [hl])

theorem mem_arrayUnion_self (x : String) (l : List String) : x ∈ arrayUnion x l := by
  unfold arrayUnion
  by_cases h : x ∈ l <;> simp [h]

theorem mem_arrayUnion_iff (x y : String) (l : List String) :
    y ∈ arrayUnion x l ↔ y ∈ l ∨ y = x := by
  unfold arrayUnion
  by_cases h : x ∈ l
  · simp only [if_pos h]
    constructor
    · exact Or.inl
    · rintro (hy | rfl)
      · exact hy
      · exact h
  · simp [if_neg h]

theorem batchUpdate2_eq_some {k₁ : String} {f₁ : UserDoc → UserDoc} {k₂ : String}
    {f₂ : UserDoc → UserDoc} {s s' : Store} (h : batchUpdate2 k₁ f₁ k₂ f₂ s = some s') :
    s'.friendRequests = s.friendRequests ∧ s'.picnics = s.picnics ∧
    s'.notifications = s.notifications := by
  unfold batchUpdate2 at h
  split at h
  · exact absurd h (by simp)
  · split at h
    · exact absurd h (by simp)
    · cases h
      exact ⟨rfl, rfl, rfl⟩

/-! ## Lemmas about the JS string primitives -/

theorem toNat_ofNat_valid {n : Nat} (h : n < 55296) : (Char.ofNat n).toNat = n := by
  rw [Char.ofNat, dif_pos (Or.inl h)]
  simp [Char.ofNatAux, Char.toNat, UInt32.toNat]

theorem isWsChar_lowerChar (c : Char) : isWsChar (lowerChar c) = isWsChar c := by
  unfold lowerChar
  split
  · next h =>
    have hv : (Char.ofNat (c.toNat + 32)).toNat = c.toNat + 32 :=
      toNat_ofNat_valid (by omega)
    have h1 : isWsChar (Char.ofNat (c.toNat + 32)) = false := by
      simp only [isWsChar, hv, decide_eq_false_iff_not]
      push_neg
      refine ⟨by omega, by omega, by omega, by omega⟩
    have h2 : isWsChar c = false := by
      simp only [isWsChar, decide_eq_false_iff_not]
      push_neg
      refine ⟨by omega, by omega, by omega, by omega⟩
    rw [h1, h2]
  · rfl

theorem lowerChar_idem (c : Char) : lowerChar (lowerChar c) = lowerChar c := by
  unfold lowerChar
  split
  · next h =>
    have hv : (Char.ofNat (c.toNat + 32)).toNat = c.toNat + 32 :=
      toNat_ofNat_valid (by omega)
    rw [if_neg]
    rw [hv]
    omega
  · rfl

theorem dropWhile_head_false {α : Type} (p : α → Bool) :
    ∀ (l : List α) (a : α) (t : List α), l.dropWhile p = a :: t → p a = false := by
  intro l
  induction l with
  | nil => intro a t h; simp [List.dropWhile] at h
  | cons x xs ih =>
    intro a t h
    rw [List.dropWhile_cons] at h
    split at h
    · exact ih a t h
    · next hx =>
      cases h
      simpa using hx

theorem dropWhile_self_of_head {α : Type} (p : α → Bool) (l : List α)
    (h : ∀ a t, l = a :: t → p a = false) : l.dropWhile p = l := by
  cases l with
  | nil => rfl
  | cons a t => rw [List.dropWhile_cons, if_neg (by simp [h a t rfl])]

theorem dropWhile_idem {α : Type} (p : α → Bool) (l : List α) :
    (l.dropWhile p).dropWhile p = l.dropWhile p := by
  apply dropWhile_self_of_head
  intro a t h
  exact dropWhile_head_false p l a t h

theorem trimChars_idem (l : List Char) : trimChars (trimChars l) = trimChars l := by
  unfold trimChars
  set r := l.dropWhile isWsChar with hr
  set q := (r.reverse.dropWhile isWsChar).reverse with hq
  have hq_prefix : q <+: r := by
    have h1 : (r.reverse.dropWhile isWsChar).reverse <+: r.reverse.reverse :=
      List.reverse_prefix.mpr (List.dropWhile_suffix isWsChar)
    rw [List.reverse_reverse] at h1
    exact hq ▸ h1
  have hdq : q.dropWhile isWsChar = q := by
    apply dropWhile_self_of_head
    intro a t h
    obtain ⟨u, hu⟩ := hq_prefix
    have : r = a :: (t ++ u) := by rw [← hu, h]; simp
    exact dropWhile_head_false isWsChar l a (t ++ u) (hr ▸ this.symm ▸ rfl)
  rw [hdq]
  have : q.reverse.dropWhile isWsChar = q.reverse := by
    rw [hq, List.reverse_reverse]
    exact dropWhile_idem isWsChar r.reverse
  rw [this, List.reverse_reverse]

theorem dropWhile_map_lowerChar (l : List Char) :
    (l.map lowerChar).dropWhile isWsChar = (l.dropWhile isWsChar).map lowerChar := by
  induction l with
  | nil => rfl
  | cons a t ih =>
    simp only [List.map_cons, List.dropWhile_cons, isWsChar_lowerChar]
    split
    · exact ih
    · rfl

theorem trimChars_map_lowerChar (l : List Char) :
    trimChars (l.map lowerChar) = (trimChars l).map lowerChar := by
  unfold trimChars
  rw [dropWhile_map_lowerChar, ← List.map_reverse, dropWhile_map_lowerChar, ← List.map_reverse]

theorem normalizeEmail_idem (e : String) : normalizeEmail (normalizeEmail e) = normalizeEmail e := by
  unfold normalizeEmail jsToLower jsTrim
  simp only
  rw [trimChars_map_lowerChar, trimChars_idem]
  congr 1
  rw [List.map_map]
  apply List.map_congr_left
  intro c _
  exact lowerChar_idem c

theorem jsTrim_empty : jsTrim "" = "" := rfl

theorem normalizeEmail_ne_empty {e : String} (h : jsTrim e ≠ "") : normalizeEmail e ≠ "" := by
  intro hc
  apply h
  have hdata : (jsTrim e).data.map lowerChar = [] := congrArg String.data hc
  have hnil : (jsTrim e).data = [] := by
    cases hd : (jsTrim e).data with
    | nil => rfl
    | cons a t => rw [hd] at hdata; simp at hdata
  apply String.ext
  rw [hnil]

theorem jsTrim_ne_of_self {e : String} (h : jsTrim e ≠ "") : e ≠ "" := by
  intro hc
  exact h (by rw [hc]; rfl)

/-! ## Concrete example documents and stores -/

def exUserA : UserDoc :=
  { name := "Alice", email := "a@x.com", photoURL := "pa", friends := [],
    friendProfiles := [], sentRequests := [], receivedRequests := [] }

def exUserB : UserDoc :=
  { name := "Bob", email := "b@x.com", photoURL := "pb", friends := [],
    friendProfiles := [], sentRequests := [], receivedRequests := [] }

/-- A pending request from `b` to `a`. -/
def exRevRequest : FriendRequestDoc :=
  { fromUserId := "b", toUserId := "a", status := .pending,
    fromUserSnap := none, toUserSnap := none }

/-- Store with users `a`, `b` and a pending `b → a` request. -/
def exStoreRev : Store :=
  { users := [("a", exUserA), ("b", exUserB)],
    friendRequests := [("r1", exRevRequest)], picnics := [], notifications := [] }

/-- A pending request from `a` to `b` carrying the sender snapshot the Db copy
of `sendFriendRequest` would have written. -/
def exFwdRequest : FriendRequestDoc :=
  { fromUserId := "a", toUserId := "b", status := .pending,
    fromUserSnap := some { name := "Alice", email := "a@x.com", photoURL := "pa" },
    toUserSnap := none }

/-- Store with users `a`, `b` and a pending `a → b` request. -/
def exStoreFwd : Store :=
  { users := [("a", exUserA), ("b", exUserB)],
    friendRequests := [("r2", exFwdRequest)], picnics := [], notifications := [] }

/-- Store where the `a → b` request has already been accepted. -/
def exStoreDone : Store :=
  { exStoreFwd with friendRequests := [("r2", { exFwdRequest with status := .accepted })] }

/-- Store with users `a`, `b` and no friend requests. -/
def exStoreTwoUsers : Store :=
  { users := [("a", exUserA), ("b", exUserB)],
    friendRequests := [], picnics := [], notifications := [] }

/-- User `a` with a non-empty friends list but an empty `friendProfiles` map. -/
def exUserNoProf : UserDoc := { exUserA with friends := ["b", "ghost"] }

/-- Store for the friends-list fallback: `a` has friend ids `b` (existing) and
`ghost` (no document), and no `friendProfiles`. -/
def exStoreNoProf : Store :=
  { users := [("a", exUserNoProf), ("b", exUserB)],
    friendRequests := [], picnics := [], notifications := [] }

def exPicnic : PicnicDoc := { participants := ["h"], invitedUsers := ["u"], createdBy := "" }

def exNotif : NotificationDoc :=
  { ntype := "picnic_invite", senderId := "h", recipientId := "u", picnicId := "p1",
    message := "", isRead := false }

/-- Store with a picnic inviting `u` and the matching invite notification. -/
def exStoreInvite : Store :=
  { users := [], friendRequests := [], picnics := [("p1", exPicnic)],
    notifications := [("n1", exNotif)] }

def exPicnicNoInvite : PicnicDoc := { participants := [], invitedUsers := [], createdBy := "" }

/-- Store where `u` holds an invite notification but is absent from the
picnic's `invitedUsers`. -/
def exStoreNoInvite : Store := { exStoreInvite with picnics := [("p1", exPicnicNoInvite)] }

def emptyStore : Store := { users := [], friendRequests := [], picnics := [], notifications := [] }

/-! ## C10 -/

/-- C10: when the Db copy of `getFriendsList` is called with a user id for
which no user document exists, it creates a blank user document for that id
(empty name, empty email, empty friends list) and returns the empty list —
the read performs a write on this edge case, leaving all other user documents
untouched. -/
theorem db_getFriendsList_creates_blank_user
    (uid : String) (s : Store) (h : lookupDoc uid s.users = none) :
    (Db.getFriendsList uid s).1 = [] ∧
    lookupDoc uid (Db.getFriendsList uid s).2.users = some Db.blankUser ∧
    Db.blankUser.name = "" ∧ Db.blankUser.email = "" ∧ Db.blankUser.friends = [] ∧
    ∀ k, k ≠ uid → lookupDoc k (Db.getFriendsList uid s).2.users = lookupDoc k s.users := by
  unfold Db.getFriendsList
  rw [h]
  refine ⟨rfl, ?_, rfl, rfl, rfl, ?_⟩
  · exact lookupDoc_setKey_self uid Db.blankUser s.users
  · intro k hk
    exact lookupDoc_setKey_ne (Ne.symm hk) Db.blankUser s.users

theorem db_getFriendsList_creates_blank_user_witness :
    (Db.getFriendsList "zz" exStoreTwoUsers).1 = [] ∧
    lookupDoc "zz" (Db.getFriendsList "zz" exStoreTwoUsers).2.users = some Db.blankUser :=
  ⟨(db_getFriendsList_creates_blank_user "zz" exStoreTwoUsers (by decide)).1,
   (db_getFriendsList_creates_blank_user "zz" exStoreTwoUsers (by decide)).2.1⟩

/-! ## C8 -/

/-- C8 (amended to the Db copy of `getFriendsList`): for a user whose
`friendProfiles` map is empty but whose friend-id list is non-empty, the call
performs no write, never fails as a whole, and resolves each friend id by an
individual lookup: a friend id appears in the returned list exactly when its
user document exists, so a missing lookup omits only that friend. -/
theorem db_getFriendsList_fallback_per_friend
    (uid : String) (s : Store) (u : UserDoc)
    (hu : lookupDoc uid s.users = some u)
    (hprof : u.friendProfiles = [])
    (hfr : u.friends ≠ []) :
    (Db.getFriendsList uid s).2 = s ∧
    ∀ fid ∈ u.friends,
      ((lookupDoc fid s.users).isSome ↔ ∃ e ∈ (Db.getFriendsList uid s).1, e.id = fid) := by
  unfold Db.getFriendsList
  rw [hu]
  simp only [if_neg hfr, hprof, ne_eq, not_true_eq_false, ite_false]
  refine ⟨trivial, ?_⟩
  intro fid hfid
  constructor
  · intro hsome
    cases hl : lookupDoc fid s.users with
    | none => rw [hl] at hsome; simp at hsome
    | some fd =>
      refine ⟨{ id := fid, name := jsOr fd.name "Unknown User", email := fd.email,
                photoURL := fd.photoURL }, ?_, rfl⟩
      apply List.mem_filterMap.mpr
      exact ⟨fid, hfid, by rw [hl]; rfl⟩
  · rintro ⟨e, he, heid⟩
    obtain ⟨a, _, hFa⟩ := List.mem_filterMap.mp he
    cases hla : lookupDoc a s.users with
    | none => rw [hla] at hFa; simp at hFa
    | some fd =>
      rw [hla] at hFa
      simp only [Option.map_some', Option.some.injEq] at hFa
      have hid : e.id = a := by rw [← hFa]
      rw [hid] at heid
      rw [← heid, hla]
      rfl

theorem db_getFriendsList_fallback_per_friend_witness :
    (Db.getFriendsList "a" exStoreNoProf).2 = exStoreNoProf ∧
    ((lookupDoc "b" exStoreNoProf.users).isSome ↔
      ∃ e ∈ (Db.getFriendsList "a" exStoreNoProf).1, e.id = "b") ∧
    ((lookupDoc "ghost" exStoreNoProf.users).isSome ↔
      ∃ e ∈ (Db.getFriendsList "a" exStoreNoProf).1, e.id = "ghost") :=
  ⟨(db_getFriendsList_fallback_per_friend "a" exStoreNoProf exUserNoProf
      (by decide) (by decide) (by decide)).1,
   (db_getFriendsList_fallback_per_friend "a" exStoreNoProf exUserNoProf
      (by decide) (by decide) (by decide)).2 "b" (by decide),
   (db_getFriendsList_fallback_per_friend "a" exStoreNoProf exUserNoProf
      (by decide) (by decide) (by decide)).2 "ghost" (by decide)⟩

/-- C8 counterexample: the Friends copy of `getFriendsList` performs no
fallback.  User `a` has an empty `friendProfiles` map, a non-empty friend list
containing `b`, and `b`'s user document exists and is resolvable, yet the call
returns the empty list instead of falling back to individual profile
fetches. -/
theorem friends_getFriendsList_no_fallback :
    ((lookupDoc "a" exStoreNoProf.users).map (fun u => u.friendProfiles)) = some [] ∧
    ((lookupDoc "a" exStoreNoProf.users).map (fun u => u.friends)) = some ["b", "ghost"] ∧
    (lookupDoc "b" exStoreNoProf.users).isSome = true ∧
    Friends.getFriendsList "a" exStoreNoProf = [] := by decide

/-! ## C6 -/

/-- C6 (amended to the client copy, src/unnamed/part_009): responding to a
picnic invite for a user that is not in the picnic's `invitedUsers` fails with
the caught not-invited error and returns the store unchanged — no document is
mutated. -/
theorem picnics_respond_not_invited_no_mutation
    (pid uid : String) (accept : Bool) (s : Store) (p : PicnicDoc)
    (hp : lookupDoc pid s.picnics = some p)
    (hnin : uid ∉ p.invitedUsers) :
    Picnics.respondToPicnicInvite pid uid accept s =
      (mkFail "Failed to process your response", s) := by
  unfold Picnics.respondToPicnicInvite
  rw [hp]
  simp only [if_neg hnin]

theorem picnics_respond_not_invited_no_mutation_witness :
    Picnics.respondToPicnicInvite "p1" "w" true exStoreInvite =
      (mkFail "Failed to process your response", exStoreInvite) :=
  picnics_respond_not_invited_no_mutation "p1" "w" true exStoreInvite exPicnic
    (by decide) (by decide)

/-- C6 counterexample: the cloud-function copy (src/unnamed/part_015) has no
invited-users guard.  With `u` absent from the picnic's `invitedUsers` but
holding the invite notification, the call succeeds, marks the notification
read, and adds `u` to `participants` — it both succeeds and mutates
documents. -/
theorem cloudFns_not_invited_still_succeeds :
    "u" ∉ exPicnicNoInvite.invitedUsers ∧
    (CloudFns.respondToPicnicInvite "p1" "n1" (some "u") true "n2" exStoreNoInvite).1 =
      .ok () ∧
    ((lookupDoc "p1"
        (CloudFns.respondToPicnicInvite "p1" "n1" (some "u") true "n2" exStoreNoInvite).2.picnics).map
      (fun p => p.participants)) = some ["u"] ∧
    ((lookupDoc "n1"
        (CloudFns.respondToPicnicInvite "p1" "n1" (some "u") true "n2" exStoreNoInvite).2.notifications).map
      (fun n => n.isRead)) = some true := by decide

/-! ## C5 -/

/-- C5 (amended to the client copy, src/unnamed/part_009): for an invited user
`uid` of picnic `pid`, responding succeeds; on accept `uid` is added to
`participants` and removed from `invitedUsers`, on decline `participants` is
untouched — and in both cases `uid` is no longer in `invitedUsers`
afterwards. -/
theorem picnics_respond_consumes_invite
    (pid uid : String) (accept : Bool) (s : Store) (p : PicnicDoc)
    (hp : lookupDoc pid s.picnics = some p)
    (hin : uid ∈ p.invitedUsers) :
    (Picnics.respondToPicnicInvite pid uid accept s).1.success = true ∧
    ∃ p', lookupDoc pid (Picnics.respondToPicnicInvite pid uid accept s).2.picnics = some p' ∧
      uid ∉ p'.invitedUsers ∧
      (accept = true → uid ∈ p'.participants) ∧
      (accept = false → p'.participants = p.participants) := by
  unfold Picnics.respondToPicnicInvite
  rw [hp]
  simp only [if_pos hin]
  cases accept with
  | true =>
    refine ⟨rfl, ?_⟩
    have h₁ : lookupDoc pid
        (adjust pid (fun q => { q with participants := arrayUnion uid q.participants }) s.picnics) =
        some { p with participants := arrayUnion uid p.participants } :=
      lookupDoc_adjust_self _ hp
    have h₂ := lookupDoc_adjust_self
      (fun q => { q with invitedUsers := p.invitedUsers.filter (fun x => x ≠ uid) }) h₁
    refine ⟨_, h₂, ?_, ?_, ?_⟩
    · simp
    · intro _
      exact mem_arrayUnion_self uid p.participants
    · intro hcc
      cases hcc
  | false =>
    refine ⟨rfl, ?_⟩
    have h₂ := lookupDoc_adjust_self
      (fun q => { q with invitedUsers := p.invitedUsers.filter (fun x => x ≠ uid) }) hp
    refine ⟨_, h₂, ?_, ?_, ?_⟩
    · simp
    · intro hcc
      cases hcc
    · intro _
      rfl

theorem picnics_respond_consumes_invite_witness :
    ((Picnics.respondToPicnicInvite "p1" "u" true exStoreInvite).1.success = true ∧
      ∃ p', lookupDoc "p1" (Picnics.respondToPicnicInvite "p1" "u" true exStoreInvite).2.picnics =
          some p' ∧
        "u" ∉ p'.invitedUsers ∧
        (true = true → "u" ∈ p'.participants) ∧
        (true = false → p'.participants = exPicnic.participants)) :=
  picnics_respond_consumes_invite "p1" "u" true exStoreInvite exPicnic (by decide) (by decide)

/-- C5 counterexample: the cloud-function copy (src/unnamed/part_015) never
removes the responder from `invitedUsers`.  With `u` invited to the picnic and
holding the invite notification, accepting succeeds and adds `u` to
`participants`, but `u` is still in `invitedUsers` afterwards. -/
theorem cloudFns_accept_leaves_invitedUsers :
    "u" ∈ exPicnic.invitedUsers ∧
    (CloudFns.respondToPicnicInvite "p1" "n1" (some "u") true "n2" exStoreInvite).1 = .ok () ∧
    ((lookupDoc "p1"
        (CloudFns.respondToPicnicInvite "p1" "n1" (some "u") true "n2" exStoreInvite).2.picnics).map
      (fun p => p.invitedUsers)) = some ["u"] := by decide

/-! ## C7 -/

theorem removeFriendUpdate_idem (o : String) (u : UserDoc) :
    Friends.removeFriendUpdate o (Friends.removeFriendUpdate o u) =
      Friends.removeFriendUpdate o u := by
  unfold Friends.removeFriendUpdate
  dsimp only
  rw [setKey_setKey_self, List.filter_filter]
  have hpred : (fun a : String => decide (a ≠ o) && decide (a ≠ o)) =
      (fun x : String => decide (x ≠ o)) := by
    funext x
    simp
  rw [hpred]

/-- Evaluation of `Friends.removeFriend` when both user documents exist: the
batch succeeds and rewrites both documents. -/
theorem removeFriend_eq_of_ne (a b : String) (hab : a ≠ b) (s : Store) (ua ub : UserDoc)
    (ha : lookupDoc a s.users = some ua) (hb : lookupDoc b s.users = some ub) :
    Friends.removeFriend a b s =
      (mkOk "Friend removed successfully.",
        { s with
          users := setKey b (Friends.removeFriendUpdate a ub)
            (setKey a (Friends.removeFriendUpdate b ua) s.users) }) := by
  simp only [Friends.removeFriend, batchUpdate2, updateAt, ha, lookupDoc_setKey_ne hab, hb]

/-- C7 (amended): for any two user ids whose user documents exist,
`removeFriend` reports success whether or not the two are currently friends,
and a second identical call also reports success and leaves the store exactly
as the first call left it. -/
theorem friends_removeFriend_idempotent_success
    (a b : String) (s : Store) (ua ub : UserDoc)
    (ha : lookupDoc a s.users = some ua)
    (hb : lookupDoc b s.users = some ub) :
    (Friends.removeFriend a b s).1 = mkOk "Friend removed successfully." ∧
    Friends.removeFriend a b (Friends.removeFriend a b s).2 =
      (mkOk "Friend removed successfully.", (Friends.removeFriend a b s).2) := by
  by_cases hab : a = b
  · subst hab
    have h1 : Friends.removeFriend a a s =
        (mkOk "Friend removed successfully.",
          { s with users := setKey a (Friends.removeFriendUpdate a ua) s.users }) := by
      simp only [Friends.removeFriend, batchUpdate2, updateAt, ha, lookupDoc_setKey_self,
        setKey_setKey_self, removeFriendUpdate_idem]
    have ha' : lookupDoc a (setKey a (Friends.removeFriendUpdate a ua) s.users) =
        some (Friends.removeFriendUpdate a ua) := lookupDoc_setKey_self _ _ _
    have h2 : Friends.removeFriend a a
        { s with users := setKey a (Friends.removeFriendUpdate a ua) s.users } =
        (mkOk "Friend removed successfully.",
          { s with users := setKey a (Friends.removeFriendUpdate a ua) s.users }) := by
      simp only [Friends.removeFriend, batchUpdate2, updateAt, ha', lookupDoc_setKey_self,
        setKey_setKey_self, removeFriendUpdate_idem]
    rw [h1]
    exact ⟨rfl, h2⟩
  · have hba : b ≠ a := Ne.symm hab
    have h1 := removeFriend_eq_of_ne a b hab s ua ub ha hb
    set L := setKey b (Friends.removeFriendUpdate a ub)
      (setKey a (Friends.removeFriendUpdate b ua) s.users) with hL
    have ha' : lookupDoc a L = some (Friends.removeFriendUpdate b ua) := by
      rw [hL, lookupDoc_setKey_ne hba, lookupDoc_setKey_self]
    have hb' : lookupDoc b L = some (Friends.removeFriendUpdate a ub) :=
      lookupDoc_setKey_self _ _ _
    have h2 := removeFriend_eq_of_ne a b hab { s with users := L } _ _ ha' hb'
    rw [h1]
    refine ⟨rfl, ?_⟩
    dsimp only
    rw [h2]
    have hfix : setKey b (Friends.removeFriendUpdate a (Friends.removeFriendUpdate a ub))
        (setKey a (Friends.removeFriendUpdate b (Friends.removeFriendUpdate b ua)) L) = L := by
      rw [removeFriendUpdate_idem, removeFriendUpdate_idem,
        setKey_self_of_lookup ha', setKey_self_of_lookup hb']
    rw [hfix]

theorem friends_removeFriend_idempotent_success_witness :
    (Friends.removeFriend "a" "b" exStoreTwoUsers).1 = mkOk "Friend removed successfully." ∧
    Friends.removeFriend "a" "b" (Friends.removeFriend "a" "b" exStoreTwoUsers).2 =
      (mkOk "Friend removed successfully.",
        (Friends.removeFriend "a" "b" exStoreTwoUsers).2) :=
  friends_removeFriend_idempotent_success "a" "b" exStoreTwoUsers exUserA exUserB
    (by decide) (by decide)

/-- C7 counterexample: for a pair of ids that are not friends because their
user documents do not exist, `removeFriend` reports failure, not success —
the batched update fails on missing documents. -/
theorem friends_removeFriend_missing_user_fails :
    Friends.removeFriend "a" "b" emptyStore =
      (mkFail "Failed to remove friend. Please try again.", emptyStore) := by decide

/-! ## C2 -/

/-- The guard of the Friends copy: responding to an existing request that is
no longer pending fails and leaves the store unchanged. -/
theorem friends_respond_not_pending {rid : String} (d : Decision) {s : Store}
    {req : FriendRequestDoc}
    (h : lookupDoc rid s.friendRequests = some req) (hs : req.status ≠ .pending) :
    Friends.respondToFriendRequest rid d s =
      (mkFail "This request has already been processed.", s) := by
  unfold Friends.respondToFriendRequest
  rw [h]
  simp only [if_pos hs]

/-- After a successful response, the request document exists and is no longer
pending. -/
theorem friends_respond_success_status {rid : String} {d : Decision} {s : Store}
    (h : (Friends.respondToFriendRequest rid d s).1.success = true) :
    ∃ req', lookupDoc rid (Friends.respondToFriendRequest rid d s).2.friendRequests = some req' ∧
      req'.status ≠ .pending := by
  unfold Friends.respondToFriendRequest at h ⊢
  cases hl : lookupDoc rid s.friendRequests with
  | none =>
    rw [hl] at h
    simp [mkFail] at h
  | some req =>
    rw [hl] at h
    dsimp only at h ⊢
    by_cases hp : req.status ≠ .pending
    · rw [if_pos hp] at h
      simp [mkFail] at h
    · rw [if_neg hp] at h ⊢
      cases d with
      | rejected =>
        dsimp only at h ⊢
        refine ⟨{ req with status := Decision.toStatus .rejected }, ?_,
          by simp [Decision.toStatus]⟩
        exact lookupDoc_adjust_self _ hl
      | accepted =>
        dsimp only at h ⊢
        split at h
        · next s₂ heq =>
          refine ⟨{ req with status := Decision.toStatus .accepted }, ?_,
            by simp [Decision.toStatus]⟩
          unfold Friends.acceptBatch at heq
          have hfr := (batchUpdate2_eq_some heq).1
          dsimp only at hfr
          rw [hfr]
          exact lookupDoc_adjust_self _ hl
        · next heq =>
          simp [mkFail] at h

/-- C2 (amended to the Friends copy of `respondToFriendRequest`): responding
to an existing request that is not pending fails for either decision and
changes no state; consequently, after any successful response, a second
response to the same request id fails and changes no state — the call
succeeds at most once. -/
theorem friends_respond_already_processed :
    (∀ rid d s req, lookupDoc rid s.friendRequests = some req →
        req.status ≠ FriendRequestStatus.pending →
        Friends.respondToFriendRequest rid d s =
          (mkFail "This request has already been processed.", s)) ∧
    (∀ rid d d' s, (Friends.respondToFriendRequest rid d s).1.success = true →
        Friends.respondToFriendRequest rid d' (Friends.respondToFriendRequest rid d s).2 =
          (mkFail "This request has already been processed.",
            (Friends.respondToFriendRequest rid d s).2)) := by
  constructor
  · intro rid d s req h hs
    exact friends_respond_not_pending d h hs
  · intro rid d d' s h
    obtain ⟨req', hl, hs⟩ := friends_respond_success_status h
    exact friends_respond_not_pending d' hl hs

theorem friends_respond_already_processed_witness :
    Friends.respondToFriendRequest "r2" .accepted exStoreDone =
      (mkFail "This request has already been processed.", exStoreDone) ∧
    Friends.respondToFriendRequest "r2" .rejected
        (Friends.respondToFriendRequest "r2" .accepted exStoreFwd).2 =
      (mkFail "This request has already been processed.",
        (Friends.respondToFriendRequest "r2" .accepted exStoreFwd).2) :=
  ⟨friends_respond_already_processed.1 "r2" .accepted exStoreDone
      { exFwdRequest with status := .accepted } (by decide) (by decide),
   friends_respond_already_processed.2 "r2" .accepted .rejected exStoreFwd (by decide)⟩

/-- C2 counterexample: the Db copy of `respondToFriendRequest` has no pending
check.  Responding to the already-accepted request `r2` succeeds (it does not
fail) and overwrites the request status, so the claim is false for this copy:
the second response to the same request id succeeds as well. -/
theorem db_respond_no_pending_guard :
    exStoreDone.requestStatus "r2" = some .accepted ∧
    (Db.respondToFriendRequest "r2" .rejected exStoreDone).1 = .ok () ∧
    (Db.respondToFriendRequest "r2" .rejected exStoreDone).2.requestStatus "r2" =
      some .rejected := by decide

/-! ## C3 -/

/-- C3: evaluation of the Friends copy of `respondToFriendRequest` at the
pending request `a → b` between Alice (`a`) and Bob (`b`).  The accept
succeeds, but Alice's `friendProfiles` entry for key `b` holds Alice's own
snapshot (from the request's `fromUser` field) instead of Bob's profile, and
Bob's entry for key `a` holds Bob's own document data instead of Alice's —
the opposite of the claimed (and Db-copy) behaviour. -/
theorem friends_accept_profile_snapshot_mismatch :
    (Friends.respondToFriendRequest "r2" .accepted exStoreFwd).1.success = true ∧
    (Friends.respondToFriendRequest "r2" .accepted exStoreFwd).2.profileOf "a" "b" =
      some (some { name := "Alice", email := "a@x.com", photoURL := "pa" }) ∧
    (Friends.respondToFriendRequest "r2" .accepted exStoreFwd).2.profileOf "b" "a" =
      some (some { name := "Bob", email := "b@x.com", photoURL := "pb" }) ∧
    ((lookupDoc "a" exStoreFwd.users).map (fun u => u.name)) = some "Alice" ∧
    ((lookupDoc "b" exStoreFwd.users).map (fun u => u.name)) = some "Bob" := by decide

/-! ## C4 -/

theorem friendsOf_eq {s : Store} {uid : String} {u : UserDoc}
    (h : lookupDoc uid s.users = some u) : s.friendsOf uid = u.friends := by
  unfold Store.friendsOf
  rw [h]

/-- C4 (amended to the Friends copy of `respondToFriendRequest`): the two
user-document updates go through one `writeBatch`, so across every state
reachable by stopping the call after any awaited write (the crash states),
either both users have gained each other as friends or neither has — never
one side only. -/
theorem friends_accept_user_updates_atomic
    (rid : String) (s : Store) (req : FriendRequestDoc) (ua ub : UserDoc)
    (hr : lookupDoc rid s.friendRequests = some req)
    (hp : req.status = .pending)
    (hne : req.fromUserId ≠ req.toUserId)
    (ha : lookupDoc req.fromUserId s.users = some ua)
    (hb : lookupDoc req.toUserId s.users = some ub)
    (hna : req.toUserId ∉ ua.friends)
    (hnb : req.fromUserId ∉ ub.friends) :
    ∀ t ∈ Friends.respondCrashStates rid .accepted s,
      (req.toUserId ∈ t.friendsOf req.fromUserId ↔
        req.fromUserId ∈ t.friendsOf req.toUserId) := by
  have hba : req.toUserId ≠ req.fromUserId := Ne.symm hne
  unfold Friends.respondCrashStates
  rw [hr]
  dsimp only
  rw [if_neg (by simp [hp])]
  unfold Friends.acceptBatch batchUpdate2 updateAt
  dsimp only
  rw [ha]
  dsimp only
  rw [lookupDoc_setKey_ne hne, hb]
  dsimp only
  intro t ht
  simp only [List.mem_cons, List.not_mem_nil, or_false] at ht
  rcases ht with rfl | rfl | rfl
  · rw [friendsOf_eq ha, friendsOf_eq hb]
    simp [hna, hnb]
  · unfold Store.friendsOf
    dsimp only
    rw [ha, hb]
    simp [hna, hnb]
  · unfold Store.friendsOf
    dsimp only
    rw [lookupDoc_setKey_ne hba, lookupDoc_setKey_self, lookupDoc_setKey_self]
    exact iff_of_true (mem_arrayUnion_self _ _) (mem_arrayUnion_self _ _)

theorem friends_accept_user_updates_atomic_witness :
    ("b" ∈ ((Friends.respondCrashStates "r2" .accepted exStoreFwd).getD 2 exStoreFwd).friendsOf "a" ↔
      "a" ∈ ((Friends.respondCrashStates "r2" .accepted exStoreFwd).getD 2 exStoreFwd).friendsOf "b") :=
  friends_accept_user_updates_atomic "r2" exStoreFwd exFwdRequest exUserA exUserB
    (by decide) (by decide) (by decide) (by decide) (by decide) (by decide) (by decide)
    ((Friends.respondCrashStates "r2" .accepted exStoreFwd).getD 2 exStoreFwd) (by decide)

/-- C4 counterexample: the Db copy of `respondToFriendRequest` issues the two
user-document updates as separate sequential `updateDoc` calls, so the state
after the first of them is reachable: there `b` is already in `a`'s friends
array while `a` is not yet in `b`'s — exactly the partial outcome the claim
rules out. -/
theorem db_accept_partial_update_reachable :
    ∃ t, t ∈ Db.respondCrashStates "r2" .accepted exStoreFwd ∧
      "b" ∈ t.friendsOf "a" ∧ "a" ∉ t.friendsOf "b" :=
  ⟨(Db.respondCrashStates "r2" .accepted exStoreFwd).getD 2 exStoreFwd,
    by decide, by decide, by decide⟩

/-! ## C1 -/

/-- C1 (amended to the Friends copy of `sendFriendRequest`): when a pending
reverse request `b → a` exists, no pending `a → b` request exists, the email
resolves to `b`, the two users are distinct, not already friends, and both
user documents exist, the call auto-accepts the existing request: it reports
success, both users gain each other as friends, the existing request document
becomes `accepted`, and no friend-request document is created (the set of
request ids is unchanged). -/
theorem friends_send_reverse_pending_auto_accepts
    (aId e nid : String) (s : Store) (bId : String) (aDoc bDoc : UserDoc)
    (rid : String) (revReq : FriendRequestDoc)
    (hb : findByEmail e s.users = some (bId, bDoc))
    (hbl : lookupDoc bId s.users = some bDoc)
    (ha : lookupDoc aId s.users = some aDoc)
    (hne : aId ≠ bId)
    (hnf : bId ∉ aDoc.friends)
    (hnp : pendingBetween aId bId s = [])
    (hrev : (pendingBetween bId aId s).head? = some (rid, revReq))
    (hrl : lookupDoc rid s.friendRequests = some revReq) :
    (Friends.sendFriendRequest aId e nid s).1 = mkOk "Friend request accepted!" ∧
    bId ∈ (Friends.sendFriendRequest aId e nid s).2.friendsOf aId ∧
    aId ∈ (Friends.sendFriendRequest aId e nid s).2.friendsOf bId ∧
    (Friends.sendFriendRequest aId e nid s).2.requestStatus rid = some .accepted ∧
    (Friends.sendFriendRequest aId e nid s).2.friendRequests.map Prod.fst =
      s.friendRequests.map Prod.fst := by
  have hba : bId ≠ aId := Ne.symm hne
  have hmem : (rid, revReq) ∈ pendingBetween bId aId s :=
    List.mem_of_mem_head? (by rw [hrev]; rfl)
  have hpred := List.mem_filter.mp (by unfold pendingBetween at hmem; exact hmem)
  have hfields : revReq.fromUserId = bId ∧ revReq.toUserId = aId ∧ revReq.status = .pending :=
    of_decide_eq_true hpred.2
  obtain ⟨hfrom, hto, hstat⟩ := hfields
  unfold Friends.sendFriendRequest
  rw [hb]
  dsimp only
  rw [if_neg hne, ha]
  dsimp only
  rw [if_neg (by simp [hnf])]
  rw [if_neg (by simp [hnp])]
  rw [hrev]
  dsimp only
  unfold Friends.respondToFriendRequest
  rw [hrl]
  dsimp only
  rw [if_neg (by simp [hstat])]
  unfold Friends.acceptBatch batchUpdate2 updateAt
  dsimp only
  rw [hfrom, hto, hbl]
  dsimp only
  rw [lookupDoc_setKey_ne hba, ha]
  dsimp only
  refine ⟨rfl, ?_, ?_, ?_, ?_⟩
  · unfold Store.friendsOf
    dsimp only
    rw [lookupDoc_setKey_self]
    exact mem_arrayUnion_self _ _
  · unfold Store.friendsOf
    dsimp only
    rw [lookupDoc_setKey_ne hne, lookupDoc_setKey_self]
    exact mem_arrayUnion_self _ _
  · unfold Store.requestStatus
    dsimp only
    rw [lookupDoc_adjust_self _ hrl]
    rfl
  · exact keys_adjust rid _ s.friendRequests

theorem friends_send_reverse_pending_auto_accepts_witness :
    (Friends.sendFriendRequest "a" "b@x.com" "new1" exStoreRev).1 =
      mkOk "Friend request accepted!" ∧
    "b" ∈ (Friends.sendFriendRequest "a" "b@x.com" "new1" exStoreRev).2.friendsOf "a" ∧
    "a" ∈ (Friends.sendFriendRequest "a" "b@x.com" "new1" exStoreRev).2.friendsOf "b" ∧
    (Friends.sendFriendRequest "a" "b@x.com" "new1" exStoreRev).2.requestStatus "r1" =
      some .accepted ∧
    (Friends.sendFriendRequest "a" "b@x.com" "new1" exStoreRev).2.friendRequests.map Prod.fst =
      exStoreRev.friendRequests.map Prod.fst :=
  friends_send_reverse_pending_auto_accepts "a" "b@x.com" "new1" exStoreRev "b" exUserA exUserB
    "r1" exRevRequest (by decide) (by decide) (by decide) (by decide) (by decide) (by decide)
    (by decide) (by decide)

/-- C1 counterexample: the Db copy of `sendFriendRequest` does not auto-accept
a reverse pending request.  With a pending `b → a` request, no pending
`a → b` request, and `a` sending to `b`'s email, the call throws
"This user has already sent you a friend request" and leaves the store
unchanged — the existing request stays pending and the two users do not
become friends. -/
theorem db_send_reverse_pending_rejects :
    pendingBetween "a" "b" exStoreRev = [] ∧
    (pendingBetween "b" "a" exStoreRev).map Prod.fst = ["r1"] ∧
    Db.sendFriendRequest "a" "b@x.com" "new1" exStoreRev =
      (.error "This user has already sent you a friend request", exStoreRev) ∧
    exStoreRev.requestStatus "r1" = some .pending ∧
    exStoreRev.friendsOf "a" = [] ∧ exStoreRev.friendsOf "b" = [] := by decide

/-! ## C9 -/

/-- C9 (amended to the Db copy of `sendFriendRequest`, for emails containing a
non-whitespace character): the call normalizes the recipient email by trim +
lowercase before the lookup, so running it on `e` is identical — same
recipient resolution, same outcome, same final store — to running it on the
normalized email. -/
theorem db_sendFriendRequest_email_normalized
    (f e nid : String) (s : Store) (h : jsTrim e ≠ "") :
    Db.sendFriendRequest f e nid s = Db.sendFriendRequest f (normalizeEmail e) nid s := by
  have he : e ≠ "" := jsTrim_ne_of_self h
  have hn : normalizeEmail e ≠ "" := normalizeEmail_ne_empty h
  unfold Db.sendFriendRequest
  rw [normalizeEmail_idem]
  by_cases hf : f = ""
  · rw [if_pos (Or.inl hf), if_pos (Or.inl hf)]
  · rw [if_neg (by push_neg; exact ⟨hf, he⟩), if_neg (by push_neg; exact ⟨hf, hn⟩)]

theorem db_sendFriendRequest_email_normalized_witness :
    Db.sendFriendRequest "a" " B@X.com " "n1" exStoreTwoUsers =
      Db.sendFriendRequest "a" (normalizeEmail " B@X.com ") "n1" exStoreTwoUsers :=
  db_sendFriendRequest_email_normalized "a" " B@X.com " "n1" exStoreTwoUsers (by decide)

/-- C9 counterexample: the Friends copy of `sendFriendRequest` looks the
recipient up by the raw email string.  For `" B@X.com "` (whose normalized
form is `"b@x.com"`, the stored email of user `b`), the raw call finds no user
and fails, while the call on the normalized email succeeds — different
outcome, different recipient resolution. -/
theorem friends_sendFriendRequest_raw_email_lookup :
    normalizeEmail " B@X.com " = "b@x.com" ∧
    (Friends.sendFriendRequest "a" " B@X.com " "n1" exStoreTwoUsers).1 =
      mkFail "No user found with that email address." ∧
    (Friends.sendFriendRequest "a" "b@x.com" "n1" exStoreTwoUsers).1 =
      mkOk "Friend request sent successfully!" := by decide
